import Mathlib

/-!
Verification of the Projection & Edge Computation Engine of the
Sports-betting dashboard repository.

The Python sources under `services/projections.py`, `utils/ev.py`,
`workers/build_prop_feed_snapshots.py` and
`workers/build_projection_snapshots.py` are embedded shallowly:

* numeric values (Python floats holding stat values, lines, odds,
  probabilities) are modelled as exact rationals `ℚ`;
* database rows are structures whose fields are `Option`-valued, matching
  `dict.get` returning `None` for missing data;
* each database query is out of scope (the spec treats the storage engine
  as an external collaborator), so a function that begins with a query is
  modelled as taking the query's result list as an argument, documented at
  the definition;
* Python string comparison (used on `created_at` timestamps) is the
  lexicographic order on the list of characters, i.e. the order on
  `String.data`;
* Python truthiness tests (`if not all([...])`, `if over_price`, ...) are
  modelled explicitly: a string is truthy iff present and non-empty, an
  integer iff present and non-zero.
-/

/-- Truthiness of an optional string, as Python evaluates it: `None` and
the empty string are falsy. -/
def truthy (x : Option String) : Bool :=
  match x with
  | none => false
  | some s => s ≠ ""

/-- Truthiness of an optional integer, as Python evaluates it: `None` and
`0` are falsy. -/
def truthyInt (x : Option ℤ) : Bool :=
  match x with
  | none => false
  | some n => n ≠ 0

/-- Python `a or b` on two optional strings: `a` unless it is falsy. -/
def orStr (a b : Option String) : Option String :=
  if truthy a then a else b

/-- Python timestamp comparison key: `prop.get("created_at") or ""` viewed
as its character list, so that `<`/`≤` on the result is exactly Python's
lexicographic string comparison. -/
def createdKey (x : Option String) : List Char :=
  (x.getD "").data

/-- Round-half-to-even on an exact rational, the rounding mode of Python's
built-in `round`. The source rounds IEEE floats; the model works in exact
rational arithmetic. -/
def roundHalfEven (x : ℚ) : ℤ :=
  let f := ⌊x⌋
  let r := x - f
  if r < 1 / 2 then f
  else if 1 / 2 < r then f + 1
  else if f % 2 = 0 then f else f + 1

/-- Python `round(x, 1)` in exact rational arithmetic. -/
def round1 (x : ℚ) : ℚ :=
  (roundHalfEven (x * 10) : ℚ) / 10

/-- Python `round(x, 2)` in exact rational arithmetic. -/
def round2 (x : ℚ) : ℚ :=
  (roundHalfEven (x * 100) : ℚ) / 100

theorem roundHalfEven_intCast (n : ℤ) : roundHalfEven (n : ℚ) = n := by
  simp [roundHalfEven]

theorem round1_intCast (n : ℤ) : round1 (n : ℚ) = n := by
  have h : ((n : ℚ) * 10) = ((n * 10 : ℤ) : ℚ) := by push_cast; ring
  rw [round1, h, roundHalfEven_intCast]
  push_cast
  field_simp

/-- One row of the `player_game_stats` table, restricted to the numeric
stat columns read by `get_prop_value_from_stat`, plus the `opponent`
column used by the matchup filters. Missing columns are `none`. -/
structure GameStat where
  points : Option ℚ := none
  rebounds : Option ℚ := none
  assists : Option ℚ := none
  three_pointers_made : Option ℚ := none
  steals : Option ℚ := none
  blocks : Option ℚ := none
  turnovers : Option ℚ := none
  headshots : Option ℚ := none
  first_kills : Option ℚ := none
  passing_yards : Option ℚ := none
  rushing_yards : Option ℚ := none
  receptions : Option ℚ := none
  receiving_yards : Option ℚ := none
  passing_touchdowns : Option ℚ := none
  rushing_touchdowns : Option ℚ := none
  opponent : Option String := none
deriving DecidableEq

/-- Embedding of `services/projections.py::get_prop_value_from_stat`:
extract the value of one prop category from a game stat record. The
composite category `pra` sums its three sub-fields treating missing ones
as zero; every other category returns the named field (or `none`). An
unrecognized category returns `none`. -/
def get_prop_value_from_stat (stat : GameStat) (propType : String) : Option ℚ :=
  if propType = "points" then stat.points
  else if propType = "rebounds" then stat.rebounds
  else if propType = "assists" then stat.assists
  else if propType = "pra" then
    some ((stat.points.getD 0) + (stat.rebounds.getD 0) + (stat.assists.getD 0))
  else if propType = "threes" then stat.three_pointers_made
  else if propType = "steals" then stat.steals
  else if propType = "blocks" then stat.blocks
  else if propType = "turnovers" then stat.turnovers
  else if propType = "kills" then stat.points
  else if propType = "deaths" then stat.rebounds
  else if propType = "headshots" then stat.headshots
  else if propType = "first_kills" then stat.first_kills
  else if propType = "pass_yds" then stat.passing_yards
  else if propType = "rush_yds" then stat.rushing_yards
  else if propType = "receptions" then stat.receptions
  else if propType = "reception_yds" then stat.receiving_yards
  else if propType = "pass_tds" then stat.passing_touchdowns
  else if propType = "rush_tds" then stat.rushing_touchdowns
  else none

/-- Embedding of `utils/ev.py::ev`: expected value of a one-unit stake at
the given American odds under the model probability `true_prob`. -/
def ev (true_prob : ℚ) (american_odds : ℤ) : ℚ :=
  let payout : ℚ :=
    if 0 < american_odds then (american_odds : ℚ) / 100
    else 100 / ((-american_odds : ℤ) : ℚ)
  true_prob * payout - (1 - true_prob)

/-- One row of the `player_prop_odds` table as selected by the snapshot
builder workers. Missing columns are `none`. -/
structure PropOdds where
  id : Option String := none
  player_id : Option String := none
  game_id : Option String := none
  prop_type : Option String := none
  line : Option ℚ := none
  over_price : Option ℤ := none
  under_price : Option ℤ := none
  book : Option String := none
  created_at : Option String := none
deriving DecidableEq

/-- Timestamp comparison key of one prop quote. -/
def createdOf (p : PropOdds) : List Char :=
  createdKey p.created_at

/-- The `prop_values` extraction loop of
`build_prop_feed_snapshots.py::_calculate_edge_and_hitrate`: the values
successfully extracted from the stat records, in order. -/
def extractPropValues (stats : List GameStat) (propType : String) : List ℚ :=
  stats.filterMap (fun s => get_prop_value_from_stat s propType)

/-- Laplace-smoothed probability of `_calculate_edge_and_hitrate`:
`(hits + 0.1) / (total_games + 0.1 * 2)`. -/
def smoothedProb (hits total_games : ℕ) : ℚ :=
  ((hits : ℚ) + 1 / 10) / ((total_games : ℚ) + (1 / 10) * 2)

/-- Re-normalization step of `_calculate_edge_and_hitrate`: both smoothed
probabilities are divided by their sum when that sum is positive. -/
def renormalizedProbs (hits_over hits_under total_games : ℕ) : ℚ × ℚ :=
  let over_prob := smoothedProb hits_over total_games
  let under_prob := smoothedProb hits_under total_games
  let total_prob := over_prob + under_prob
  if 0 < total_prob then (over_prob / total_prob, under_prob / total_prob)
  else (over_prob, under_prob)

/-- The `edge_data` dict produced by `_calculate_edge_and_hitrate`. -/
structure EdgeData where
  edge : ℚ
  side : String
  prob : ℚ
  odds : Option ℤ
deriving DecidableEq

/-- The `hit_rate` dict produced by `_calculate_edge_and_hitrate`. The
percentages are rounded to one decimal; `pushes` is the integer
`total_games - hits_over - hits_under`. -/
structure HitRate where
  total_games : ℕ
  over_pct : ℚ
  under_pct : ℚ
  pushes : ℤ
  over_count : ℕ
  under_count : ℕ
deriving DecidableEq

/-- Edge-side selection of `_calculate_edge_and_hitrate`: the over side is
reported when its EV is available and the under EV is absent or not
larger; otherwise the under side is reported when available. -/
def selectEdge (over_ev under_ev : Option ℚ) (over_prob under_prob : ℚ)
    (over_price under_price : Option ℤ) : Option EdgeData :=
  match over_ev, under_ev with
  | some oe, none => some ⟨oe, "over", over_prob, over_price⟩
  | some oe, some ue =>
      if ue ≤ oe then some ⟨oe, "over", over_prob, over_price⟩
      else some ⟨ue, "under", under_prob, under_price⟩
  | none, some ue => some ⟨ue, "under", under_prob, under_price⟩
  | none, none => none

/-- Embedding of
`workers/build_prop_feed_snapshots.py::_calculate_edge_and_hitrate`.
Python's `prop.get("prop_type")` may be `None`; extracting with category
`""` reproduces that case (no category matches). The guard
`over_ev = ev(...) if over_price else None` uses integer truthiness. -/
def _calculate_edge_and_hitrate (prop : PropOdds) (stats : List GameStat) :
    Option EdgeData × Option HitRate :=
  if stats = [] ∨ prop.line = none then (none, none)
  else
    let propType := prop.prop_type.getD ""
    let line := prop.line.getD 0
    let prop_values := extractPropValues stats propType
    if prop_values = [] then (none, none)
    else
      let total_games := prop_values.length
      let hits_over := (prop_values.filter (fun v => line < v)).length
      let hits_under := (prop_values.filter (fun v => v < line)).length
      let pushes : ℤ := (total_games : ℤ) - (hits_over : ℤ) - (hits_under : ℤ)
      let probs := renormalizedProbs hits_over hits_under total_games
      let over_ev : Option ℚ :=
        if truthyInt prop.over_price then some (ev probs.1 (prop.over_price.getD 0)) else none
      let under_ev : Option ℚ :=
        if truthyInt prop.under_price then some (ev probs.2 (prop.under_price.getD 0)) else none
      let edge_data := selectEdge over_ev under_ev probs.1 probs.2 prop.over_price prop.under_price
      let hit_rate : HitRate :=
        ⟨total_games,
         round1 ((hits_over : ℚ) / (total_games : ℚ) * 100),
         round1 ((hits_under : ℚ) / (total_games : ℚ) * 100),
         pushes, hits_over, hits_under⟩
      (edge_data, some hit_rate)

/-- C1: for every defined line and every non-empty list of extracted
historical values, the Edge/Hit-Rate Calculator's smoothed probabilities
are `p_over = (hits_over + 0.1) / (N + 0.2)` and
`p_under = (hits_under + 0.1) / (N + 0.2)`, and after the
re-normalization step the pair sums to exactly 1 in rational
arithmetic. -/
theorem smoothed_probs_sum_to_one_after_renormalization
    (prop : PropOdds) (stats : List GameStat) (l : ℚ)
    (values : List ℚ) (hO hU n : ℕ)
    (hline : prop.line = some l)
    (hv : values = extractPropValues stats (prop.prop_type.getD ""))
    (hne : values ≠ [])
    (hn : n = values.length)
    (hhO : hO = (values.filter (fun v => l < v)).length)
    (hhU : hU = (values.filter (fun v => v < l)).length) :
    smoothedProb hO n = ((hO : ℚ) + 1 / 10) / ((n : ℚ) + 2 / 10) ∧
    smoothedProb hU n = ((hU : ℚ) + 1 / 10) / ((n : ℚ) + 2 / 10) ∧
    (renormalizedProbs hO hU n).1 + (renormalizedProbs hO hU n).2 = 1 := by
  have ho : 0 < smoothedProb hO n := by
    rw [smoothedProb]
    positivity
  have hu : 0 < smoothedProb hU n := by
    rw [smoothedProb]
    positivity
  have ht : 0 < smoothedProb hO n + smoothedProb hU n := by linarith
  refine ⟨?_, ?_, ?_⟩
  · rw [smoothedProb]
    norm_num
  · rw [smoothedProb]
    norm_num
  · rw [renormalizedProbs]
    simp only [if_pos ht]
    rw [div_add_div_same, div_self (ne_of_gt ht)]

/-- Closed witness for the C1 theorem at a one-game history. -/
theorem smoothed_probs_sum_to_one_witness :
    smoothedProb 1 1 = ((1 : ℚ) + 1 / 10) / ((1 : ℚ) + 2 / 10) ∧
    smoothedProb 0 1 = ((0 : ℚ) + 1 / 10) / ((1 : ℚ) + 2 / 10) ∧
    (renormalizedProbs 1 0 1).1 + (renormalizedProbs 1 0 1).2 = 1 := by
  have h := smoothed_probs_sum_to_one_after_renormalization
    { prop_type := some "points", line := some 20 }
    [{ points := some 30 }] 20 [30] 1 0 1 rfl
    (by simp [extractPropValues, get_prop_value_from_stat])
    (by simp) rfl
    (by norm_num) (by norm_num)
  simpa using h

theorem round1_sixty : round1 (60 : ℚ) = 60 := by
  have h := round1_intCast 60
  push_cast at h
  exact h

theorem round1_forty : round1 (40 : ℚ) = 40 := by
  have h := round1_intCast 40
  push_cast at h
  exact h

/-- The prop quote of the spec's worked example: line 27.5, both prices
-110. -/
def examplePropQuote : PropOdds :=
  { prop_type := some "points", line := some (27.5 : ℚ),
    over_price := some (-110), under_price := some (-110) }

/-- The stat history of the spec's worked example: points values
`[30, 25, 28, 22, 31]`, most recent first. -/
def exampleStats : List GameStat :=
  [{ points := some 30 }, { points := some 25 }, { points := some 28 },
   { points := some 22 }, { points := some 31 }]

/-- C2: on historical values `[30, 25, 28, 22, 31]`, line 27.5 and prices
-110 on both sides, the calculator finds `hits_over = 3`, `hits_under = 2`,
`pushes = 0`, renormalized probabilities `3.1/5.2` and `2.1/5.2`, and
reports the over side with expected value
`(3.1/5.2) * (100/110) - 2.1/5.2`, which is within 0.001 of 0.138. -/
theorem example_scenario_edge_and_hitrate :
    _calculate_edge_and_hitrate examplePropQuote exampleStats =
      (some ⟨(3.1 / 5.2) * (100 / 110) - 2.1 / 5.2, "over", 3.1 / 5.2, some (-110)⟩,
       some ⟨5, 60, 40, 0, 3, 2⟩) ∧
    renormalizedProbs 3 2 5 = (3.1 / 5.2, 2.1 / 5.2) ∧
    |((3.1 : ℚ) / 5.2) * (100 / 110) - 2.1 / 5.2 - 0.138| < 0.001 := by
  refine ⟨?_, ?_, ?_⟩
  · norm_num [examplePropQuote, exampleStats, _calculate_edge_and_hitrate,
      extractPropValues, get_prop_value_from_stat, renormalizedProbs,
      smoothedProb, selectEdge, ev, truthyInt, round1_sixty, round1_forty,
      List.filterMap, List.filter, Option.some_ne_none, List.cons_ne_nil]
  · norm_num [renormalizedProbs, smoothedProb]
  · rw [abs_sub_lt_iff]
    norm_num


/-- C10: when both prices are present (truthy) and the two expected
values are exactly equal, the reported edge side is the over side,
because the selection comparison is `over_ev >= under_ev`. -/
theorem edge_tie_reports_over_side
    (prop : PropOdds) (stats : List GameStat) (l : ℚ)
    (values : List ℚ) (probs : ℚ × ℚ)
    (hline : prop.line = some l)
    (hover : truthyInt prop.over_price = true)
    (hunder : truthyInt prop.under_price = true)
    (hv : values = extractPropValues stats (prop.prop_type.getD ""))
    (hne : values ≠ [])
    (hprobs : probs = renormalizedProbs (values.filter (fun v => l < v)).length
      (values.filter (fun v => v < l)).length values.length)
    (htie : ev probs.1 (prop.over_price.getD 0) = ev probs.2 (prop.under_price.getD 0)) :
    (_calculate_edge_and_hitrate prop stats).1 =
      some ⟨ev probs.1 (prop.over_price.getD 0), "over", probs.1, prop.over_price⟩ := by
  have hstats : stats ≠ [] := by
    intro h
    apply hne
    rw [hv, h]
    rfl
  rw [_calculate_edge_and_hitrate]
  rw [if_neg (by simp [hstats, hline])]
  simp only [hline, Option.getD_some]
  rw [← hv]
  rw [if_neg hne]
  simp only [hover, hunder, if_true, ← hprobs]
  rw [selectEdge]
  simp only [le_of_eq htie.symm, if_pos]

/-- Closed witness for the C10 theorem: values `[10, 20]`, line 15, both
prices -110 give equal EVs and the over side is reported. -/
theorem edge_tie_reports_over_side_witness :
    (_calculate_edge_and_hitrate
      { prop_type := some "points", line := some 15,
        over_price := some (-110), under_price := some (-110) }
      [{ points := some 10 }, { points := some 20 }]).1 =
      some ⟨ev (1 / 2) (-110), "over", 1 / 2, some (-110)⟩ := by
  have h := edge_tie_reports_over_side
    { prop_type := some "points", line := some 15,
      over_price := some (-110), under_price := some (-110) }
    [{ points := some 10 }, { points := some 20 }] 15 [10, 20] (1 / 2, 1 / 2)
    rfl rfl rfl
    (by simp [extractPropValues, get_prop_value_from_stat, List.filterMap])
    (by simp)
    (by norm_num [renormalizedProbs, smoothedProb, List.filter])
    rfl
  exact h

/-- Accumulation loop of
`services/projections.py::calculate_weighted_average`: starting at record
index `i` with `n` total records, sum `value * weight` and `weight` over
the records whose extraction succeeds, with
`weight = 1.0 + (n - index) * recency_weight`. The source accumulates the
same two sums left to right with `+=`. -/
def weightedLoop (propType : String) (rw : ℚ) (n : ℕ) : ℕ → List GameStat → ℚ × ℚ
  | _, [] => (0, 0)
  | i, s :: rest =>
    let acc := weightedLoop propType rw n (i + 1) rest
    match get_prop_value_from_stat s propType with
    | none => acc
    | some v =>
      let w : ℚ := 1 + ((n : ℚ) - (i : ℚ)) * rw
      (v * w + acc.1, w + acc.2)

/-- Embedding of `services/projections.py::calculate_weighted_average`:
recency-weighted mean of the extracted values; `none` for an empty input
list and when the accumulated weight is zero. -/
def calculate_weighted_average (stats : List GameStat) (propType : String)
    (recency_weight : ℚ) : Option ℚ :=
  if stats = [] then none
  else
    let acc := weightedLoop propType recency_weight stats.length 0 stats
    if acc.2 = 0 then none
    else some (acc.1 / acc.2)

/-- Weight given to the record at 0-based index `i` out of `n` records,
as in the claim: `1 + (N - i) * recency_weight`. -/
def recencyWeight (n i : ℕ) (rw : ℚ) : ℚ :=
  1 + ((n : ℚ) - (i : ℚ)) * rw

/-- The extracted values paired with their weights, indexed from the
front of the record list. -/
def weightedPairs (stats : List GameStat) (propType : String) (rw : ℚ) :
    List (ℚ × ℚ) :=
  (stats.enum).filterMap
    (fun p => (get_prop_value_from_stat p.2 propType).map
      (fun v => (v, recencyWeight stats.length p.1 rw)))

/-- Extracted value/weight pairs of the records from index `i` on. -/
def weightedPairsFrom (propType : String) (rw : ℚ) (n i : ℕ)
    (l : List GameStat) : List (ℚ × ℚ) :=
  (l.enumFrom i).filterMap
    (fun p => (get_prop_value_from_stat p.2 propType).map
      (fun v => (v, recencyWeight n p.1 rw)))

theorem weightedLoop_eq_sums (propType : String) (rw : ℚ) (n : ℕ) :
    ∀ (l : List GameStat) (i : ℕ),
      weightedLoop propType rw n i l =
        (((weightedPairsFrom propType rw n i l).map (fun q => q.1 * q.2)).sum,
         ((weightedPairsFrom propType rw n i l).map Prod.snd).sum) := by
  intro l
  induction l with
  | nil => intro i; simp [weightedLoop, weightedPairsFrom]
  | cons s rest ih =>
      intro i
      rw [weightedLoop]
      cases h : get_prop_value_from_stat s propType with
      | none =>
          simp only [h, ih (i + 1)]
          simp [weightedPairsFrom, List.enumFrom, List.filterMap_cons, h]
      | some v =>
          simp only [h, ih (i + 1)]
          simp [weightedPairsFrom, List.enumFrom, List.filterMap_cons, h,
            recencyWeight]

theorem weightedLoop_snd_zero_iff (propType : String) (rw : ℚ)
    (hrw : 0 ≤ rw) (n : ℕ) :
    ∀ (l : List GameStat) (i : ℕ), i + l.length ≤ n →
      0 ≤ (weightedLoop propType rw n i l).2 ∧
      ((weightedLoop propType rw n i l).2 = 0 ↔
        ∀ s ∈ l, get_prop_value_from_stat s propType = none) := by
  intro l
  induction l with
  | nil => intro i _; simp [weightedLoop]
  | cons s rest ih =>
      intro i hlen
      have hlen' : i + 1 + rest.length ≤ n := by
        simp only [List.length_cons] at hlen
        omega
      have hrec := ih (i + 1) hlen'
      rw [weightedLoop]
      cases h : get_prop_value_from_stat s propType with
      | none =>
          simp only [h]
          constructor
          · exact hrec.1
          · rw [hrec.2]
            simp [h]
      | some v =>
          have hin : (i : ℚ) + 1 ≤ (n : ℚ) := by
            have : i + 1 ≤ n := by omega
            exact_mod_cast this
          have hw : (1 : ℚ) ≤ 1 + ((n : ℚ) - (i : ℚ)) * rw := by
            nlinarith
          simp only [h]
          constructor
          · nlinarith [hrec.1]
          · constructor
            · intro hz
              exfalso
              have := hrec.1
              nlinarith
            · intro hall
              exfalso
              have := hall s (by simp)
              rw [h] at this
              exact Option.noConfusion this

/-- C4: for a non-negative recency weight, `calculate_weighted_average`
returns `none` exactly when the input is empty or no value can be
extracted from any record; otherwise it returns
`sum(v_i * w_i) / sum(w_i)` where the record at index `i` (0-indexed from
the front, most recent first, out of `N` records) carries weight
`1 + (N - i) * recency_weight`; for a positive recency weight the most
recent record's weight is strictly the largest. -/
theorem calculate_weighted_average_spec (stats : List GameStat)
    (propType : String) (rw : ℚ) (hrw : 0 ≤ rw) :
    (calculate_weighted_average stats propType rw = none ↔
      (stats = [] ∨ ∀ s ∈ stats, get_prop_value_from_stat s propType = none)) ∧
    (stats ≠ [] → ¬ (∀ s ∈ stats, get_prop_value_from_stat s propType = none) →
      calculate_weighted_average stats propType rw =
        some (((weightedPairs stats propType rw).map (fun q => q.1 * q.2)).sum /
              ((weightedPairs stats propType rw).map Prod.snd).sum)) ∧
    (∀ i : ℕ, 0 < i → 0 < rw →
      recencyWeight stats.length i rw < recencyWeight stats.length 0 rw) := by
  have hzero := weightedLoop_snd_zero_iff propType rw hrw stats.length stats 0
    (by omega)
  have hsums := weightedLoop_eq_sums propType rw stats.length stats 0
  have hpairs : weightedPairs stats propType rw =
      weightedPairsFrom propType rw stats.length 0 stats := rfl
  refine ⟨?_, ?_, ?_⟩
  · rw [calculate_weighted_average]
    by_cases hempty : stats = []
    · simp [hempty]
    · rw [if_neg hempty]
      constructor
      · intro hnone
        right
        rw [← hzero.2]
        by_contra hnz
        rw [if_neg hnz] at hnone
        exact Option.noConfusion hnone
      · intro hcases
        rcases hcases with hc | hc
        · exact absurd hc hempty
        · rw [if_pos (hzero.2.mpr hc)]
  · intro hempty hnotall
    rw [calculate_weighted_average, if_neg hempty]
    have hnz : (weightedLoop propType rw stats.length 0 stats).2 ≠ 0 := by
      intro hz
      exact hnotall (hzero.2.mp hz)
    rw [if_neg hnz]
    rw [hpairs, hsums]
  · intro i hi hrwpos
    rw [recencyWeight, recencyWeight]
    have hiq : (0 : ℚ) < (i : ℚ) := by exact_mod_cast hi
    push_cast
    nlinarith

/-- Closed witness for the C4 theorem: two records with points 10 and 20,
recency weight 0.1, give the weighted mean (10*1.2 + 20*1.1) / 2.3. -/
theorem calculate_weighted_average_spec_witness :
    calculate_weighted_average
      [{ points := some 10 }, { points := some 20 }] "points" (1 / 10) =
      some (340 / 23) ∧
    recencyWeight 2 1 (1 / 10) < recencyWeight 2 0 (1 / 10) := by
  have h := calculate_weighted_average_spec
    [{ points := some 10 }, { points := some 20 }] "points" (1 / 10)
    (by norm_num)
  constructor
  · rw [h.2.1 (by simp) ?notall]
    · norm_num [weightedPairs, recencyWeight, List.enum, List.enumFrom,
        List.filterMap, get_prop_value_from_stat, List.map]
    case notall =>
      intro hall
      have h10 := hall { points := some 10 } (by simp)
      rw [get_prop_value_from_stat] at h10
      simp at h10
  · exact h.2.2 1 (by norm_num) (by norm_num)

/-- One row of the opponent-defense query of
`services/projections.py::calculate_opponent_defense_rating`, which
selects only `points, rebounds, assists`. -/
structure OppGame where
  points : Option ℚ := none
  rebounds : Option ℚ := none
  assists : Option ℚ := none
deriving DecidableEq

/-- The per-game value extraction inside
`calculate_opponent_defense_rating` (only the four basketball categories
are recognized; anything else stays `None`). -/
def defenseStatValue (game : OppGame) (propType : String) : Option ℚ :=
  if propType = "points" then game.points
  else if propType = "rebounds" then game.rebounds
  else if propType = "assists" then game.assists
  else if propType = "pra" then
    some ((game.points.getD 0) + (game.rebounds.getD 0) + (game.assists.getD 0))
  else none

/-- The `league_averages` lookup of `calculate_opponent_defense_rating`
with its default of 10.0 for unknown categories. -/
def league_averages (propType : String) : ℚ :=
  if propType = "points" then 12
  else if propType = "rebounds" then 5
  else if propType = "assists" then 7 / 2
  else if propType = "pra" then 41 / 2
  else if propType = "threes" then 9 / 5
  else 10

/-- The `prop_values` list of `calculate_opponent_defense_rating`: values
that extracted successfully and are strictly positive (`value > 0`,
"only count games where player played"). -/
def qualifyingDefenseValues (opponent_games : List OppGame)
    (propType : String) : List ℚ :=
  opponent_games.filterMap (fun game =>
    match defenseStatValue game propType with
    | none => none
    | some v => if 0 < v then some v else none)

/-- Embedding of
`services/projections.py::calculate_opponent_defense_rating`, taking the
result list of the opponent-games query. The guard
`if not opponent_games or len(opponent_games) < 10` collapses to the
length test (an empty list has length 0 < 10), and likewise for
`prop_values`. -/
def calculate_opponent_defense_rating (opponent_games : List OppGame)
    (propType : String) : ℚ :=
  if opponent_games.length < 10 then 1
  else
    let prop_values := qualifyingDefenseValues opponent_games propType
    if prop_values.length < 5 then 1
    else
      let avg_allowed := prop_values.sum / (prop_values.length : ℚ)
      let league_avg := league_averages propType
      if 0 < league_avg then
        max (85 / 100) (min (115 / 100) (avg_allowed / league_avg))
      else 1

/-- Modelled from the claim's words, for comparison with the code: the
average qualifying (positive) stat value divided by the league-average
constant, clamped to [0.85, 1.15], whenever at least 5 qualifying games
exist, else 1.0. -/
def defenseRatingClaim (opponent_games : List OppGame)
    (propType : String) : ℚ :=
  let qualifying := qualifyingDefenseValues opponent_games propType
  if 5 ≤ qualifying.length then
    max (85 / 100) (min (115 / 100)
      ((qualifying.sum / (qualifying.length : ℚ)) / league_averages propType))
  else 1

theorem league_averages_pos (propType : String) :
    0 < league_averages propType := by
  rw [league_averages]
  split_ifs <;> norm_num

/-- Counterexample to C5: five games of 20 points each are all
qualifying, so the claim demands the clamped ratio 1.15, but the code
first requires at least 10 raw games and returns exactly 1. -/
theorem defense_rating_five_games_counterexample :
    calculate_opponent_defense_rating
      (List.replicate 5 { points := some 20 }) "points" = 1 ∧
    defenseRatingClaim (List.replicate 5 { points := some 20 }) "points" =
      115 / 100 ∧
    (1 : ℚ) ≠ 115 / 100 := by
  refine ⟨?_, ?_, by norm_num⟩
  · rw [calculate_opponent_defense_rating]
    rw [if_pos (by simp)]
  · norm_num [defenseRatingClaim, qualifyingDefenseValues, defenseStatValue,
      league_averages, List.replicate, List.filterMap]

/-- C5 as amended: the rating is the clamped ratio of the average
qualifying value to the league constant only when the query returned at
least 10 raw games AND at least 5 of them qualify; with fewer raw games
or fewer qualifying games it is exactly 1; and the output always lies in
[0.85, 1.15]. -/
theorem defense_rating_amended (opponent_games : List OppGame)
    (propType : String) :
    (opponent_games.length < 10 ∨
        (qualifyingDefenseValues opponent_games propType).length < 5 →
      calculate_opponent_defense_rating opponent_games propType = 1) ∧
    (10 ≤ opponent_games.length →
      5 ≤ (qualifyingDefenseValues opponent_games propType).length →
      calculate_opponent_defense_rating opponent_games propType =
        max (85 / 100) (min (115 / 100)
          (((qualifyingDefenseValues opponent_games propType).sum /
            ((qualifyingDefenseValues opponent_games propType).length : ℚ)) /
              league_averages propType))) ∧
    85 / 100 ≤ calculate_opponent_defense_rating opponent_games propType ∧
    calculate_opponent_defense_rating opponent_games propType ≤ 115 / 100 := by
  have hle : (85 : ℚ) / 100 ≤ 115 / 100 := by norm_num
  refine ⟨?_, ?_, ?_⟩
  · intro hcase
    rw [calculate_opponent_defense_rating]
    rcases hcase with hc | hc
    · rw [if_pos hc]
    · by_cases hlen : opponent_games.length < 10
      · rw [if_pos hlen]
      · rw [if_neg hlen]
        simp only [if_pos hc]
  · intro hlen hqual
    rw [calculate_opponent_defense_rating, if_neg (by omega)]
    simp only [if_neg (by omega : ¬ (qualifyingDefenseValues opponent_games propType).length < 5)]
    rw [if_pos (league_averages_pos propType)]
  · rw [calculate_opponent_defense_rating]
    by_cases h1 : opponent_games.length < 10
    · rw [if_pos h1]
      norm_num
    · rw [if_neg h1]
      by_cases h2 : (qualifyingDefenseValues opponent_games propType).length < 5
      · simp only [if_pos h2]
        norm_num
      · simp only [if_neg h2, if_pos (league_averages_pos propType)]
        exact ⟨le_max_left _ _, max_le hle (min_le_left _ _)⟩

/-- Closed witness for the amended C5 theorem: ten raw games, all
qualifying, hit the clamp branch; four raw games return 1. -/
theorem defense_rating_amended_witness :
    calculate_opponent_defense_rating
      (List.replicate 10 { points := some 20 }) "points" =
      max (85 / 100) (min (115 / 100)
        (((qualifyingDefenseValues
            (List.replicate 10 { points := some 20 }) "points").sum /
          ((qualifyingDefenseValues
            (List.replicate 10 { points := some 20 }) "points").length : ℚ)) /
            league_averages "points")) ∧
    calculate_opponent_defense_rating
      (List.replicate 4 { points := some 20 }) "points" = 1 := by
  constructor
  · exact (defense_rating_amended
      (List.replicate 10 { points := some 20 }) "points").2.1
      (by simp)
      (by norm_num [qualifyingDefenseValues, defenseStatValue,
        List.replicate, List.filterMap])
  · exact (defense_rating_amended
      (List.replicate 4 { points := some 20 }) "points").1
      (Or.inl (by simp))

/-- One row of the active-injury query of
`services/projections.py::get_injury_status` (the query already filters
`status = "active"` and orders by `reported_date` descending). -/
structure Injury where
  severity : Option String := none
  impact_percentage : Option ℚ := none
  injury_type : Option String := none
  notes : Option String := none
deriving DecidableEq

/-- The dict returned by `get_injury_status`. -/
structure InjuryStatus where
  status : String
  severity : Option String
  impact_multiplier : ℚ
  injury_type : Option String := none
  notes : Option String := none
deriving DecidableEq

/-- Python `str.lower()` on the severity string, character by character
(the severities in play are ASCII). -/
def lowerStr (s : String) : String :=
  String.mk (s.data.map Char.toLower)

/-- The healthy default of `get_injury_status`. -/
def healthyStatus : InjuryStatus :=
  { status := "healthy", severity := none, impact_multiplier := 1 }

/-- The severity-to-impact defaulting table of `get_injury_status`
(applied when the stored impact percentage is zero): out=100,
doubtful=50, questionable=25, probable=10, anything else stays 0. -/
def severityImpact (severity : String) : ℚ :=
  if severity = "out" then 100
  else if severity = "doubtful" then 50
  else if severity = "questionable" then 25
  else if severity = "probable" then 10
  else 0

/-- Embedding of `services/projections.py::get_injury_status`, taking the
active-injury query result (most recent first, at most one row). An
empty result is the healthy default. A row whose `severity` column is
null makes `injury.get("severity", "").lower()` raise, and the
surrounding `except` returns the healthy default. The expression
`injury.get("impact_percentage", 0) or 0` maps a null percentage to 0,
and the `if impact_pct == 0` defaulting therefore also fires for an
explicitly stored zero. -/
def get_injury_status (activeInjuries : List Injury) : InjuryStatus :=
  match activeInjuries with
  | [] => healthyStatus
  | injury :: _ =>
    match injury.severity with
    | none => healthyStatus
    | some sev0 =>
      let severity := lowerStr sev0
      let stored := injury.impact_percentage.getD 0
      let impact_pct := if stored = 0 then severityImpact severity else stored
      let impact_multiplier := max 0 (min 1 (1 - impact_pct / 100))
      { status := if severity = "" then "injured" else severity,
        severity := some severity,
        impact_multiplier := impact_multiplier,
        injury_type := injury.injury_type,
        notes := injury.notes }

/-- Counterexample to C6: an active record with severity "out" and an
explicitly stored impact percentage of 0. The claim says an explicit
percentage is used as stored, giving multiplier 1 - 0/100 = 1; the code
re-derives 100 from the severity and returns multiplier 0. -/
theorem injury_explicit_zero_counterexample :
    (get_injury_status
      [{ severity := some "out", impact_percentage := some 0 }]).impact_multiplier
      = 0 ∧
    (get_injury_status
      [{ severity := some "out", impact_percentage := some 0 }]).impact_multiplier
      ≠ max 0 (min 1 (1 - (0 : ℚ) / 100)) := by
  have hlow : lowerStr "out" = "out" := by decide
  constructor
  · norm_num [get_injury_status, severityImpact, hlow]
  · norm_num [get_injury_status, severityImpact, hlow]

/-- Embedding of `services/projections.py::calculate_opponent_adjustment`:
the player's weighted average versus this opponent divided by the overall
weighted average. `all_stats` is the result of the 20-game recent-stats
query and `matchup_stats` of the 10-game versus-opponent query. The
Python guards `if not overall_avg or overall_avg == 0` and
`if not matchup_avg` treat both `None` and `0` as missing. -/
def calculate_opponent_adjustment (all_stats matchup_stats : List GameStat)
    (propType : String) : ℚ :=
  match calculate_weighted_average all_stats propType (1 / 10) with
  | none => 1
  | some overall_avg =>
    if overall_avg = 0 then 1
    else
      match calculate_weighted_average matchup_stats propType (1 / 10) with
      | none => 1
      | some matchup_avg =>
        if matchup_avg = 0 then 1
        else matchup_avg / overall_avg

/-- Embedding of
`services/projections.py::calculate_home_away_adjustment`: the weighted
average in the requested venue divided by the mean of the home and away
weighted averages. `if not home_avg or not away_avg` treats `None` and
`0` alike. -/
def calculate_home_away_adjustment (home_stats away_stats : List GameStat)
    (propType : String) (is_home : Bool) : ℚ :=
  match calculate_weighted_average home_stats propType (1 / 10),
        calculate_weighted_average away_stats propType (1 / 10) with
  | some home_avg, some away_avg =>
    if home_avg = 0 ∨ away_avg = 0 then 1
    else
      let overall_avg := (home_avg + away_avg) / 2
      if overall_avg = 0 then 1
      else if is_home then home_avg / overall_avg else away_avg / overall_avg
  | _, _ => 1

/-- Embedding of `services/projections.py::get_player_rest_days`, with
calendar dates abstracted to day ordinals (integers): the day gap to the
most recent prior recorded game, clamped at 0; 2 (normal rest) when no
prior game exists. -/
def get_player_rest_days (last_game_date : Option ℤ) (game_date : ℤ) : ℤ :=
  match last_game_date with
  | none => 2
  | some d => max 0 (game_date - d)

/-- Embedding of `services/projections.py::calculate_rest_adjustment`. -/
def calculate_rest_adjustment (rest_days : ℤ) : ℚ :=
  if rest_days = 0 then 95 / 100
  else if rest_days = 1 then 98 / 100
  else if 3 ≤ rest_days then 102 / 100
  else 1

/-- Embedding of `services/projections.py::calculate_pace_adjustment`
(a stub in the source: always neutral). -/
def calculate_pace_adjustment (gameId : Option String)
    (propType : String) : ℚ :=
  1

/-- The `factors` dict built by `calculate_projection`. -/
structure Factors where
  baseline : ℚ
  baseline_source : String
  player_avg : ℚ
  defense_adjustment : ℚ := 1
  matchup_adjustment : ℚ := 1
  home_away_adjustment : ℚ := 1
  injury_adjustment : ℚ := 1
  rest_adjustment : ℚ := 1
  pace_adjustment : ℚ := 1
  rest_days : Option ℤ := none
deriving DecidableEq

/-- The dict returned by `calculate_projection`. The early
"cannot project" return carries only the first four keys; the missing
keys are modelled as `none`. -/
structure ProjectionResult where
  projected_line : Option ℚ
  confidence : ℚ
  factors : Option Factors
  sample_size : ℕ
  injury_status : Option String := none
  baseline_source : Option String := none
  bovada_line : Option ℚ := none
deriving DecidableEq

/-- The null-projection result of `calculate_projection`. -/
def nullProjection : ProjectionResult :=
  { projected_line := none, confidence := 0, factors := none, sample_size := 0 }

/-- The database context one `calculate_projection` call reads, i.e. the
results of its queries (the storage engine is out of scope). -/
structure ProjEnv where
  recent_stats : List GameStat := []
  all_stats : List GameStat := []
  matchup_stats : List GameStat := []
  home_stats : List GameStat := []
  away_stats : List GameStat := []
  opponent_games : List OppGame := []
  active_injuries : List Injury := []
  db_bovada_line : Option ℚ := none
  game_date : Option ℤ := none
  last_game_date : Option ℤ := none

/-- Baseline-line resolution step of `calculate_projection`: when no
Bovada line was supplied and a game id is given (truthy), the stored
Bovada line is fetched via `get_bovada_line`. -/
def effectiveBovadaLine (env : ProjEnv) (gameId : Option String)
    (bovada_line : Option ℚ) : Option ℚ :=
  if bovada_line = none ∧ truthy gameId then env.db_bovada_line
  else bovada_line

/-- Confidence computation at the end of `calculate_projection`:
`min(1, n/15)`, reduced by the coefficient of variation of the last 10
extracted values when the sample has at least 5 records and at least 3
extracted values and a positive mean. The source computes the standard
deviation as `variance ** 0.5` in floating point; the model uses the
rational square-root approximation `Rat.sqrt`. No theorem in this file
depends on the approximated value. -/
def projectionConfidence (recent_stats : List GameStat)
    (propType : String) : ℚ :=
  let sample_size := recent_stats.length
  let confidence : ℚ := min 1 ((sample_size : ℚ) / 15)
  if 5 ≤ sample_size then
    let values := (recent_stats.take 10).filterMap
      (fun s => get_prop_value_from_stat s propType)
    if 3 ≤ values.length then
      let avg := values.sum / (values.length : ℚ)
      let variance := ((values.map (fun v => (v - avg) ^ 2)).sum) / (values.length : ℚ)
      let std_dev := Rat.sqrt variance
      if 0 < avg then confidence * max (1 / 2) (1 - std_dev / avg * (1 / 2))
      else confidence
    else confidence
  else confidence

/-- Embedding of `services/projections.py::calculate_projection`. The
baseline is the (supplied or fetched) Bovada line, else the player's
weighted average with recency weight 0.15 over the recent-stats window;
with neither, the null-projection result is returned. Otherwise the
baseline is multiplied by the defense, matchup, home/away, injury, rest
and pace adjustments (defense and matchup only for a truthy opponent,
rest and pace only for a truthy game id; the rest factors stay at their
defaults when the game date cannot be resolved). The player average is
computed only for a non-empty stat list (`if recent_stats else None`),
which `projPlayerAvg` mirrors. -/
def projPlayerAvg (env : ProjEnv) (propType : String) : Option ℚ :=
  if env.recent_stats = [] then none
  else calculate_weighted_average env.recent_stats propType (15 / 100)

/-- Baseline selection of `calculate_projection`: the effective Bovada
line when present (tagged "bovada"), else the player average (tagged
"player_avg"), else `none`. -/
def projBaseline (env : ProjEnv) (propType : String)
    (gameId : Option String) (bovada_line0 : Option ℚ) :
    Option (ℚ × String) :=
  match effectiveBovadaLine env gameId bovada_line0 with
  | some b => some (b, "bovada")
  | none => (projPlayerAvg env propType).map (fun a => (a, "player_avg"))

def calculate_projection (env : ProjEnv) (propType : String)
    (opponent_team : Option String) (is_home : Bool)
    (gameId : Option String) (bovada_line0 : Option ℚ) : ProjectionResult :=
  let bovada_line := effectiveBovadaLine env gameId bovada_line0
  let recent_stats := env.recent_stats
  let player_avg := projPlayerAvg env propType
  match projBaseline env propType gameId bovada_line0 with
  | none => nullProjection
  | some base0 =>
    let defense_adj :=
      if truthy opponent_team then
        calculate_opponent_defense_rating env.opponent_games propType
      else 1
    let matchup_adj :=
      if truthy opponent_team then
        calculate_opponent_adjustment env.all_stats env.matchup_stats propType
      else 1
    let home_away_adj :=
      calculate_home_away_adjustment env.home_stats env.away_stats propType is_home
    let injury := get_injury_status env.active_injuries
    let rest_info : Option (ℤ × ℚ) :=
      if truthy gameId then
        match env.game_date with
        | some gd =>
          some (get_player_rest_days env.last_game_date gd,
                calculate_rest_adjustment (get_player_rest_days env.last_game_date gd))
        | none => none
      else none
    let rest_adj := match rest_info with | some ri => ri.2 | none => 1
    let pace_adj :=
      if truthy gameId then calculate_pace_adjustment gameId propType else 1
    let base_projection := base0.1 * defense_adj * matchup_adj * home_away_adj *
      injury.impact_multiplier * rest_adj * pace_adj
    let factors : Factors :=
      { baseline := base0.1,
        baseline_source := base0.2,
        player_avg := player_avg.getD 0,
        defense_adjustment := defense_adj,
        matchup_adjustment := matchup_adj,
        home_away_adjustment := home_away_adj,
        injury_adjustment := injury.impact_multiplier,
        rest_adjustment := rest_adj,
        pace_adjustment := pace_adj,
        rest_days := rest_info.map (fun ri => ri.1) }
    { projected_line := some (round1 base_projection),
      confidence := round2 (projectionConfidence recent_stats propType),
      factors := some factors,
      sample_size := recent_stats.length,
      injury_status := some injury.status,
      baseline_source := some base0.2,
      bovada_line := bovada_line }

/-- C6 as amended: with no active injury record the multiplier is exactly
1 and the status string is "healthy", and any projection produced for
such a player reports injury status "healthy" (the null projection
carries no status field); with an active record whose severity is
present, the multiplier is `1 - p/100` clamped to [0, 1], where `p` is
the stored impact percentage when it is present and non-zero, and is
otherwise defaulted from the lowercased severity (out=100, doubtful=50,
questionable=25, probable=10, else 0); the multiplier always lies in
[0, 1]. -/
theorem injury_adjustment_amended :
    (get_injury_status [] = healthyStatus ∧
     (get_injury_status []).impact_multiplier = 1 ∧
     (get_injury_status []).status = "healthy") ∧
    (∀ (env : ProjEnv) (propType : String) (opp : Option String)
       (is_home : Bool) (gameId : Option String) (bl : Option ℚ),
      env.active_injuries = [] →
      (calculate_projection env propType opp is_home gameId bl).injury_status
          = some "healthy" ∨
      calculate_projection env propType opp is_home gameId bl
          = nullProjection) ∧
    (∀ (inj : Injury) (rest : List Injury) (s : String) (p : ℚ),
      inj.severity = some s →
      p = (if inj.impact_percentage.getD 0 = 0 then severityImpact (lowerStr s)
           else inj.impact_percentage.getD 0) →
      (get_injury_status (inj :: rest)).impact_multiplier =
        max 0 (min 1 (1 - p / 100))) ∧
    (severityImpact "out" = 100 ∧ severityImpact "doubtful" = 50 ∧
     severityImpact "questionable" = 25 ∧ severityImpact "probable" = 10) ∧
    (∀ injuries : List Injury,
      0 ≤ (get_injury_status injuries).impact_multiplier ∧
      (get_injury_status injuries).impact_multiplier ≤ 1) := by
  refine ⟨⟨rfl, rfl, rfl⟩, ?_, ?_, ?_, ?_⟩
  · intro env propType opp is_home gameId bl hinj
    rw [calculate_projection]
    cases hb : projBaseline env propType gameId bl with
    | none => right; rfl
    | some base0 =>
        left
        simp only [hinj]
        rfl
  · intro inj rest s p hs hp
    rw [get_injury_status]
    simp only [hs]
    rw [hp]
  · refine ⟨?_, ?_, ?_, ?_⟩ <;> decide
  · intro injuries
    cases injuries with
    | nil =>
        constructor <;> norm_num [get_injury_status, healthyStatus]
    | cons inj rest =>
        cases hs : inj.severity with
        | none =>
            constructor <;> simp [get_injury_status, hs, healthyStatus]
        | some s =>
            constructor
            · simp only [get_injury_status, hs]
              exact le_max_left _ _
            · simp only [get_injury_status, hs]
              exact max_le (by norm_num) (min_le_left _ _)

/-- Closed witness for the amended C6 theorem. -/
theorem injury_adjustment_amended_witness :
    ((calculate_projection { } "points" none true none (some 27)).injury_status
        = some "healthy" ∨
      calculate_projection { } "points" none true none (some 27)
        = nullProjection) ∧
    (get_injury_status
        [{ severity := some "doubtful", impact_percentage := some 30 }]).impact_multiplier
      = max 0 (min 1 (1 -
          (if (some (30 : ℚ)).getD 0 = 0 then severityImpact (lowerStr "doubtful")
           else (some (30 : ℚ)).getD 0) / 100)) ∧
    (0 ≤ (get_injury_status []).impact_multiplier ∧
      (get_injury_status []).impact_multiplier ≤ 1) := by
  refine ⟨?_, ?_, ?_⟩
  · exact injury_adjustment_amended.2.1 { } "points" none true none (some 27) rfl
  · exact injury_adjustment_amended.2.2.1
      { severity := some "doubtful", impact_percentage := some 30 } []
      "doubtful" _ rfl rfl
  · exact injury_adjustment_amended.2.2.2.2 []

/-- Lookup in an insertion-ordered association list, the model of a
Python dict. -/
def lookupA {α β : Type} [DecidableEq α] (l : List (α × β)) (k : α) :
    Option β :=
  (l.find? (fun e => decide (e.1 = k))).map (fun e => e.2)

/-- Python dict assignment `d[k] = v` on an insertion-ordered association
list: replace the entry in place, or append a new one. -/
def insertA {α β : Type} [DecidableEq α] :
    List (α × β) → α → β → List (α × β)
  | [], k, v => [(k, v)]
  | e :: rest, k, v =>
      if e.1 = k then (k, v) :: rest else e :: insertA rest k v

/-- The (player, game, prop-category) key of the Projection Snapshot
Builder. -/
abbrev Key3 := String × String × String

/-- Validity filter of
`build_projection_snapshots.py::_dedupe_props`:
`if not all([player_id, game_id, prop_type]): continue`. -/
def projValid (p : PropOdds) : Bool :=
  truthy p.player_id && truthy p.game_id && truthy p.prop_type

/-- The dedupe key of a valid quote in the Projection Snapshot Builder. -/
def keyOf3 (p : PropOdds) : Key3 :=
  (p.player_id.getD "", p.game_id.getD "", p.prop_type.getD "")

/-- One iteration of the loop of
`build_projection_snapshots.py::_dedupe_props`: `latest[key]` is replaced
only when the new quote's timestamp is strictly greater, while
`bovada_lines[key]` is overwritten by every Bovada quote with a line
(last write wins, no timestamp comparison). -/
def projDedupeStep (st : List (Key3 × PropOdds) × List (Key3 × ℚ))
    (p : PropOdds) : List (Key3 × PropOdds) × List (Key3 × ℚ) :=
  if projValid p then
    let k := keyOf3 p
    let latest :=
      match lookupA st.1 k with
      | none => insertA st.1 k p
      | some q => if createdOf q < createdOf p then insertA st.1 k p else st.1
    let bovada :=
      if p.book = some "Bovada" ∧ p.line ≠ none then insertA st.2 k (p.line.getD 0)
      else st.2
    (latest, bovada)
  else st

/-- Embedding of `build_projection_snapshots.py::_dedupe_props`: the
`latest` map and the `bovada_lines` map after folding over the fetched
quotes (which arrive ordered most recent first). -/
def _dedupe_props_projection (props : List PropOdds) :
    List (Key3 × PropOdds) × List (Key3 × ℚ) :=
  props.foldl projDedupeStep ([], [])

/-- The newer Bovada quote of the C9 failing input (line 27). -/
def bovadaNewerQuote : PropOdds :=
  { player_id := some "p", game_id := some "g", prop_type := some "points",
    line := some 27, book := some "Bovada", created_at := some "2024-01-02" }

/-- The older Bovada quote of the C9 failing input (line 29). -/
def bovadaOlderQuote : PropOdds :=
  { player_id := some "p", game_id := some "g", prop_type := some "points",
    line := some 29, book := some "Bovada", created_at := some "2024-01-01" }

/-- C9 failing input, evaluated: with two Bovada quotes for the same key
fetched most recent first, the `latest` map keeps the most recent quote
(line 27), but `bovada_lines` records the line of the older quote (29),
because its entry is overwritten by every Bovada quote in iteration
order with no timestamp comparison. -/
theorem bovada_baseline_ignores_recency :
    lookupA (_dedupe_props_projection
      [bovadaNewerQuote, bovadaOlderQuote]).2 ("p", "g", "points") = some 29 ∧
    lookupA (_dedupe_props_projection
      [bovadaNewerQuote, bovadaOlderQuote]).1 ("p", "g", "points")
      = some bovadaNewerQuote ∧
    bovadaNewerQuote.line = some 27 ∧
    createdOf bovadaOlderQuote < createdOf bovadaNewerQuote ∧
    (29 : ℚ) ≠ 27 := by
  refine ⟨?_, ?_, rfl, by decide, by norm_num⟩
  · norm_num [_dedupe_props_projection, projDedupeStep, projValid, keyOf3,
      truthy, lookupA, insertA, createdOf, createdKey,
      bovadaNewerQuote, bovadaOlderQuote, List.foldl, List.find?]
  · norm_num [_dedupe_props_projection, projDedupeStep, projValid, keyOf3,
      truthy, lookupA, insertA, createdOf, createdKey,
      bovadaNewerQuote, bovadaOlderQuote, List.foldl, List.find?]

/-- One row of the `players` reference map. -/
structure Player where
  name : Option String := none
  team : Option String := none
  position : Option String := none
  sport : Option String := none
deriving DecidableEq

/-- One row of the `games` reference map. -/
structure Game where
  home_team : Option String := none
  away_team : Option String := none
deriving DecidableEq

/-- Embedding of `build_projection_snapshots.py::_resolve_matchup` for a
present game record (the caller has already checked the game lookup):
match the player's team against the home and away names; if no opponent
was resolved (including a home/away name that is null), fall back to
`away_team or home_team` and recompute the home flag by equality with
the away name. -/
def _resolve_matchup (player_team : Option String) (game : Game) :
    Option String × Option Bool :=
  let step1 : Option String × Option Bool :=
    if truthy player_team then
      if player_team = game.home_team then (game.away_team, some true)
      else if player_team = game.away_team then (game.home_team, some false)
      else (none, none)
    else (none, none)
  match step1.1 with
  | some o => (some o, step1.2)
  | none =>
    let opponent := orStr game.away_team game.home_team
    (opponent, some (decide (opponent = game.away_team)))

/-- One row upserted by the Projection Snapshot Builder (static metadata
fields such as sport, snapshot version and timestamps are omitted; no
claim mentions them). -/
structure ProjSnapshotRow where
  player_id : String
  game_id : String
  prop_type : String
  opponent : Option String
  is_home : Option Bool
  projected_line : ℚ
  confidence : ℚ
  baseline_source : Option String
  bovada_line : Option ℚ
  sample_size : ℕ
  injury_status : Option String
  source_prop_id : Option String
deriving DecidableEq

/-- The reference data and per-key database context one run of the
Projection Snapshot Builder reads. -/
structure ProjSnapEnv where
  players : String → Option Player
  games : String → Option Game
  ctx : Key3 → ProjEnv

/-- The `calculate_projection` call the builder makes for one deduped
key: opponent and home flag from `_resolve_matchup`, a missing home flag
defaulted to `True`, and the Bovada baseline from the `bovada_lines`
map. -/
def projectionForEntry (env : ProjSnapEnv) (bovada : List (Key3 × ℚ))
    (k : Key3) (player : Player) (game : Game) : ProjectionResult :=
  let mu := _resolve_matchup player.team game
  calculate_projection (env.ctx k) k.2.2 mu.1 (mu.2.getD true) (some k.2.1)
    (lookupA bovada k)

/-- Embedding of `build_projection_snapshots.py::build_snapshots` (the
per-key loop producing the rows to upsert): for each entry of the
deduped `latest` map, skip keys whose player or game lookup fails and
keys whose projection has a null projected line; otherwise emit the
snapshot row. -/
def build_projection_snapshots (env : ProjSnapEnv) (props : List PropOdds) :
    List ProjSnapshotRow :=
  let st := _dedupe_props_projection props
  st.1.filterMap (fun e =>
    match env.players e.1.1, env.games e.1.2.1 with
    | some player, some game =>
      let mu := _resolve_matchup player.team game
      let projection := projectionForEntry env st.2 e.1 player game
      match projection.projected_line with
      | none => none
      | some pl =>
        some { player_id := e.1.1, game_id := e.1.2.1, prop_type := e.1.2.2,
               opponent := mu.1, is_home := mu.2,
               projected_line := pl,
               confidence := projection.confidence,
               baseline_source := projection.baseline_source,
               bovada_line := projection.bovada_line,
               sample_size := projection.sample_size,
               injury_status := projection.injury_status,
               source_prop_id := e.2.id }
    | _, _ => none)

/-- C7: the projection baseline is the supplied-or-fetched Bovada line
when one exists (tagged "bovada"); otherwise the player's weighted
average with recency weight 0.15 (tagged "player_avg"); when neither is
available the result is the null projection (projected line `none`,
confidence 0, sample size 0) rather than an error; and every row the
Projection Snapshot Builder emits comes from a key whose computed
projection has a non-null projected line, so no row is emitted for a
null-projection key. -/
theorem projection_baseline_fallback_and_null_skip :
    (∀ (env : ProjEnv) (propType : String) (opp : Option String)
       (is_home : Bool) (gameId : Option String) (bl0 : Option ℚ) (b : ℚ),
      effectiveBovadaLine env gameId bl0 = some b →
      (calculate_projection env propType opp is_home gameId bl0).baseline_source
          = some "bovada" ∧
      ((calculate_projection env propType opp is_home gameId bl0).factors).map
          Factors.baseline = some b ∧
      (calculate_projection env propType opp is_home gameId bl0).projected_line
          ≠ none) ∧
    (∀ (env : ProjEnv) (propType : String) (opp : Option String)
       (is_home : Bool) (gameId : Option String) (bl0 : Option ℚ) (a : ℚ),
      effectiveBovadaLine env gameId bl0 = none →
      projPlayerAvg env propType = some a →
      (calculate_projection env propType opp is_home gameId bl0).baseline_source
          = some "player_avg" ∧
      ((calculate_projection env propType opp is_home gameId bl0).factors).map
          Factors.baseline = some a) ∧
    (∀ (env : ProjEnv) (propType : String) (opp : Option String)
       (is_home : Bool) (gameId : Option String) (bl0 : Option ℚ),
      effectiveBovadaLine env gameId bl0 = none →
      projPlayerAvg env propType = none →
      calculate_projection env propType opp is_home gameId bl0
        = nullProjection) ∧
    (∀ (env : ProjSnapEnv) (props : List PropOdds)
       (row : ProjSnapshotRow),
      row ∈ build_projection_snapshots env props →
      ∃ player game,
        env.players row.player_id = some player ∧
        env.games row.game_id = some game ∧
        (projectionForEntry env (_dedupe_props_projection props).2
          (row.player_id, row.game_id, row.prop_type) player game).projected_line
          = some row.projected_line) := by
  refine ⟨?_, ?_, ?_, ?_⟩
  · intro env propType opp is_home gameId bl0 b heff
    have hb : projBaseline env propType gameId bl0 = some (b, "bovada") := by
      rw [projBaseline, heff]
    rw [calculate_projection, hb]
    refine ⟨rfl, rfl, by simp⟩
  · intro env propType opp is_home gameId bl0 a heff havg
    have hb : projBaseline env propType gameId bl0 = some (a, "player_avg") := by
      rw [projBaseline, heff, havg]
      rfl
    rw [calculate_projection, hb]
    exact ⟨rfl, rfl⟩
  · intro env propType opp is_home gameId bl0 heff havg
    have hb : projBaseline env propType gameId bl0 = none := by
      rw [projBaseline, heff, havg]
      rfl
    rw [calculate_projection, hb]
  · intro env props row hrow
    rw [build_projection_snapshots] at hrow
    obtain ⟨e, he, hf⟩ := List.mem_filterMap.mp hrow
    obtain ⟨⟨pid, gid, pt⟩, q⟩ := e
    cases hp : env.players pid with
    | none => rw [hp] at hf; exact Option.noConfusion hf
    | some player =>
      cases hg : env.games gid with
      | none => rw [hp, hg] at hf; exact Option.noConfusion hf
      | some game =>
        rw [hp, hg] at hf
        dsimp only at hf
        cases hl : (projectionForEntry env (_dedupe_props_projection props).2
            (pid, gid, pt) player game).projected_line with
        | none => rw [hl] at hf; exact Option.noConfusion hf
        | some pl =>
          rw [hl] at hf
          have hrow2 := Option.some.inj hf
          refine ⟨player, game, ?_, ?_, ?_⟩
          · rw [← hrow2]
            exact hp
          · rw [← hrow2]
            exact hg
          · rw [← hrow2]
            exact hl

/-- Closed witness for the C7 theorem: a stored Bovada line of 27 is
selected as baseline, and an empty context yields the null projection. -/
theorem projection_baseline_fallback_witness :
    (calculate_projection { db_bovada_line := some 27 } "points" none true
        (some "g") none).baseline_source = some "bovada" ∧
    calculate_projection { } "points" none true none none
      = nullProjection := by
  constructor
  · exact (projection_baseline_fallback_and_null_skip.1
      { db_bovada_line := some 27 } "points" none true (some "g") none 27
      (by simp [effectiveBovadaLine, truthy])).1
  · exact projection_baseline_fallback_and_null_skip.2.2.1
      { } "points" none true none none
      (by simp [effectiveBovadaLine, truthy])
      (by simp [projPlayerAvg])

theorem lookupA_insertA_self {α β : Type} [DecidableEq α]
    (l : List (α × β)) (k : α) (v : β) :
    lookupA (insertA l k v) k = some v := by
  induction l with
  | nil => simp [insertA, lookupA, List.find?]
  | cons e rest ih =>
      rw [insertA]
      by_cases he : e.1 = k
      · rw [if_pos he]
        simp [lookupA, List.find?]
      · rw [if_neg he]
        simpa [lookupA, List.find?, he] using ih

theorem lookupA_insertA_ne {α β : Type} [DecidableEq α]
    (l : List (α × β)) (k k' : α) (v : β) (h : k' ≠ k) :
    lookupA (insertA l k' v) k = lookupA l k := by
  induction l with
  | nil => simp [insertA, lookupA, List.find?, h]
  | cons e rest ih =>
      rw [insertA]
      by_cases he : e.1 = k'
      · rw [if_pos he]
        have hek : ¬ (e.1 = k) := by
          rw [he]
          exact h
        simp [lookupA, List.find?, h, hek]
      · rw [if_neg he]
        by_cases hek : e.1 = k
        · simp [lookupA, List.find?, hek]
        · simpa [lookupA, List.find?, hek] using ih

theorem lookupA_mem_values {α β : Type} [DecidableEq α]
    (l : List (α × β)) (k : α) (v : β) (h : lookupA l k = some v) :
    v ∈ l.map (fun e => e.2) := by
  rw [lookupA] at h
  cases hf : l.find? (fun e => decide (e.1 = k)) with
  | none => rw [hf] at h; exact Option.noConfusion h
  | some e =>
      rw [hf] at h
      have he : e ∈ l := List.mem_of_find?_eq_some hf
      have hv : e.2 = v := Option.some.inj h
      rw [← hv]
      exact List.mem_map_of_mem (fun e => e.2) he

/-- The (player, game, prop-category, line, book) key of the Prop Feed
Snapshot Builder. -/
abbrev Key5 := String × String × String × ℚ × String

/-- Validity filter of `build_prop_feed_snapshots.py::_dedupe_props`:
`if not all([player_id, game_id, prop_type, book]) or line is None:
continue`. -/
def validProp (p : PropOdds) : Bool :=
  truthy p.player_id && truthy p.game_id && truthy p.prop_type &&
    truthy p.book && p.line.isSome

/-- The dedupe key of a valid quote in the Prop Feed Snapshot Builder. -/
def keyOf (p : PropOdds) : Key5 :=
  (p.player_id.getD "", p.game_id.getD "", p.prop_type.getD "",
   p.line.getD 0, p.book.getD "")

/-- One iteration of the loop of
`build_prop_feed_snapshots.py::_dedupe_props`: keep the incumbent unless
the new quote's timestamp string (missing compares as empty) is
strictly greater. -/
def feedDedupeStep (latest : List (Key5 × PropOdds)) (p : PropOdds) :
    List (Key5 × PropOdds) :=
  if validProp p then
    match lookupA latest (keyOf p) with
    | none => insertA latest (keyOf p) p
    | some q =>
        if createdOf q < createdOf p then insertA latest (keyOf p) p
        else latest
  else latest

/-- The `latest` dict of `build_prop_feed_snapshots.py::_dedupe_props`
after the loop. -/
def feedDedupeFold (props : List PropOdds) : List (Key5 × PropOdds) :=
  props.foldl feedDedupeStep []

/-- Embedding of `build_prop_feed_snapshots.py::_dedupe_props`:
`list(latest.values())`. -/
def _dedupe_props (props : List PropOdds) : List PropOdds :=
  (feedDedupeFold props).map (fun e => e.2)

/-- The quotes of the input that are valid and carry the given key. -/
def matchingProps (props : List PropOdds) (k : Key5) : List PropOdds :=
  props.filter (fun p => validProp p && decide (keyOf p = k))

/-- The running winner of the dedupe loop restricted to one key: the
incumbent is replaced exactly when the challenger's timestamp is
strictly greater. -/
def champion (cur : Option PropOdds) : List PropOdds → Option PropOdds
  | [] => cur
  | p :: rest =>
    match cur with
    | none => champion (some p) rest
    | some q =>
        if createdOf q < createdOf p then champion (some p) rest
        else champion (some q) rest

theorem champion_some_ne_none (l : List PropOdds) :
    ∀ q : PropOdds, champion (some q) l ≠ none := by
  induction l with
  | nil => intro q h; exact Option.noConfusion h
  | cons p rest ih =>
      intro q
      rw [champion]
      by_cases hlt : createdOf q < createdOf p
      · rw [if_pos hlt]; exact ih p
      · rw [if_neg hlt]; exact ih q

theorem champion_mem (l : List PropOdds) :
    ∀ (cur : Option PropOdds) (q : PropOdds), champion cur l = some q →
      cur = some q ∨ q ∈ l := by
  induction l with
  | nil => intro cur q h; exact Or.inl h
  | cons p rest ih =>
      intro cur q h
      cases cur with
      | none =>
          rw [champion] at h
          rcases ih (some p) q h with hc | hm
          · exact Or.inr (by simp [Option.some.inj hc])
          · exact Or.inr (List.mem_cons_of_mem p hm)
      | some c =>
          rw [champion] at h
          by_cases hlt : createdOf c < createdOf p
          · rw [if_pos hlt] at h
            rcases ih (some p) q h with hc | hm
            · exact Or.inr (by simp [Option.some.inj hc])
            · exact Or.inr (List.mem_cons_of_mem p hm)
          · rw [if_neg hlt] at h
            rcases ih (some c) q h with hc | hm
            · exact Or.inl hc
            · exact Or.inr (List.mem_cons_of_mem p hm)

theorem champion_max (l : List PropOdds) :
    ∀ (cur : Option PropOdds) (q : PropOdds), champion cur l = some q →
      (∀ p ∈ l, createdOf p ≤ createdOf q) ∧
      (∀ c, cur = some c → createdOf c ≤ createdOf q) := by
  induction l with
  | nil =>
      intro cur q h
      refine ⟨by intro p hp; exact absurd hp (List.not_mem_nil p), ?_⟩
      intro c hc
      rw [hc] at h
      rw [Option.some.inj h]
  | cons p rest ih =>
      intro cur q h
      cases cur with
      | none =>
          rw [champion] at h
          obtain ⟨h1, h2⟩ := ih (some p) q h
          refine ⟨?_, ?_⟩
          · intro x hx
            rcases List.mem_cons.mp hx with hx | hx
            · rw [hx]; exact h2 p rfl
            · exact h1 x hx
          · intro c hc; exact Option.noConfusion hc
      | some c =>
          rw [champion] at h
          by_cases hlt : createdOf c < createdOf p
          · rw [if_pos hlt] at h
            obtain ⟨h1, h2⟩ := ih (some p) q h
            refine ⟨?_, ?_⟩
            · intro x hx
              rcases List.mem_cons.mp hx with hx | hx
              · rw [hx]; exact h2 p rfl
              · exact h1 x hx
            · intro c2 hc2
              have hcc : c2 = c := (Option.some.inj hc2).symm
              rw [hcc]
              exact le_of_lt (lt_of_lt_of_le hlt (h2 p rfl))
          · rw [if_neg hlt] at h
            obtain ⟨h1, h2⟩ := ih (some c) q h
            refine ⟨?_, ?_⟩
            · intro x hx
              rcases List.mem_cons.mp hx with hx | hx
              · rw [hx]
                exact le_trans (le_of_not_lt hlt) (h2 c rfl)
              · exact h1 x hx
            · intro c2 hc2
              have hcc : c2 = c := (Option.some.inj hc2).symm
              rw [hcc]
              exact h2 c rfl

theorem feedFold_lookup (props : List PropOdds) :
    ∀ (latest : List (Key5 × PropOdds)) (k : Key5),
      lookupA (props.foldl feedDedupeStep latest) k =
        champion (lookupA latest k) (matchingProps props k) := by
  induction props with
  | nil => intro latest k; rfl
  | cons p rest ih =>
      intro latest k
      rw [List.foldl_cons]
      by_cases hv : validProp p = true
      · by_cases hk : keyOf p = k
        · have hmatch : matchingProps (p :: rest) k = p :: matchingProps rest k := by
            rw [matchingProps, List.filter_cons]
            simp [hv, hk, matchingProps]
          rw [hmatch]
          rw [feedDedupeStep, if_pos hv]
          cases hl : lookupA latest (keyOf p) with
          | none =>
              have hlk : lookupA latest k = none := by rw [← hk]; exact hl
              rw [ih (insertA latest (keyOf p) p) k, hlk, champion]
              rw [← hk, lookupA_insertA_self]
          | some q =>
              have hlk : lookupA latest k = some q := by rw [← hk]; exact hl
              rw [hlk]
              dsimp only
              by_cases hlt : createdOf q < createdOf p
              · rw [if_pos hlt, ih (insertA latest (keyOf p) p) k, champion,
                  if_pos hlt]
                rw [← hk, lookupA_insertA_self]
              · rw [if_neg hlt, ih latest k, champion, if_neg hlt, hlk]
        · have hmatch : matchingProps (p :: rest) k = matchingProps rest k := by
            rw [matchingProps, List.filter_cons]
            simp [hk, matchingProps]
          rw [hmatch]
          have hstep : lookupA (feedDedupeStep latest p) k = lookupA latest k := by
            rw [feedDedupeStep, if_pos hv]
            cases hl : lookupA latest (keyOf p) with
            | none => exact lookupA_insertA_ne latest k (keyOf p) p hk
            | some q =>
                dsimp only
                by_cases hlt : createdOf q < createdOf p
                · rw [if_pos hlt]
                  exact lookupA_insertA_ne latest k (keyOf p) p hk
                · rw [if_neg hlt]
          rw [ih (feedDedupeStep latest p) k, hstep]
      · have hmatch : matchingProps (p :: rest) k = matchingProps rest k := by
          rw [matchingProps, List.filter_cons]
          simp [hv, matchingProps]
        rw [hmatch]
        have hstep : feedDedupeStep latest p = latest := by
          rw [feedDedupeStep, if_neg hv]
        rw [hstep, ih latest k]

/-- C8: for every input quote list and every key carried by at least one
valid quote, the deduplication step of the Prop Feed Snapshot Builder
keeps exactly one quote for that key: it is one of the quotes with that
key, its timestamp string (missing read as "") is lexicographically
greatest among them, and whenever one quote's timestamp is strictly
greater than every other's, that quote is the one kept. -/
theorem dedupe_keeps_latest_quote (props : List PropOdds) (k : Key5)
    (hne : matchingProps props k ≠ []) :
    ∃ q, lookupA (feedDedupeFold props) k = some q ∧
      q ∈ matchingProps props k ∧
      (∀ p ∈ matchingProps props k, createdOf p ≤ createdOf q) ∧
      q ∈ _dedupe_props props ∧
      (∀ p ∈ matchingProps props k,
        (∀ r ∈ matchingProps props k, r ≠ p → createdOf r < createdOf p) →
        q = p) := by
  have hfold := feedFold_lookup props [] k
  have hnone : lookupA ([] : List (Key5 × PropOdds)) k = none := rfl
  rw [hnone] at hfold
  cases hc : champion none (matchingProps props k) with
  | none =>
      exfalso
      cases hm : matchingProps props k with
      | nil => exact hne hm
      | cons p rest =>
          rw [hm, champion] at hc
          exact champion_some_ne_none rest p hc
  | some q =>
      rw [hc] at hfold
      have hmem : q ∈ matchingProps props k := by
        rcases champion_mem (matchingProps props k) none q hc with hcur | hm
        · exact Option.noConfusion hcur
        · exact hm
      have hmax := (champion_max (matchingProps props k) none q hc).1
      refine ⟨q, hfold, hmem, hmax, ?_, ?_⟩
      · exact lookupA_mem_values (feedDedupeFold props) k q hfold
      · intro p hp hstrict
        by_contra hqp
        have h1 : createdOf q < createdOf p := hstrict q hmem hqp
        have h2 : createdOf p ≤ createdOf q := hmax p hp
        exact absurd h1 (not_lt_of_le h2)

/-- The older quote of the C8 witness input. -/
def feedOlderQuote : PropOdds :=
  { id := some "o", player_id := some "p", game_id := some "g",
    prop_type := some "points", line := some 27, book := some "X",
    created_at := some "2024-01-01" }

/-- The newer quote of the C8 witness input. -/
def feedNewerQuote : PropOdds :=
  { id := some "n", player_id := some "p", game_id := some "g",
    prop_type := some "points", line := some 27, book := some "X",
    created_at := some "2024-01-02" }

/-- Closed witness for the C8 theorem at a two-quote input sharing one
key. -/
theorem dedupe_keeps_latest_quote_witness :
    matchingProps [feedOlderQuote, feedNewerQuote]
      ("p", "g", "points", 27, "X") ≠ [] ∧
    (∃ q, lookupA (feedDedupeFold [feedOlderQuote, feedNewerQuote])
        ("p", "g", "points", 27, "X") = some q ∧
      q ∈ matchingProps [feedOlderQuote, feedNewerQuote]
        ("p", "g", "points", 27, "X") ∧
      (∀ p ∈ matchingProps [feedOlderQuote, feedNewerQuote]
        ("p", "g", "points", 27, "X"), createdOf p ≤ createdOf q) ∧
      q ∈ _dedupe_props [feedOlderQuote, feedNewerQuote] ∧
      (∀ p ∈ matchingProps [feedOlderQuote, feedNewerQuote]
        ("p", "g", "points", 27, "X"),
        (∀ r ∈ matchingProps [feedOlderQuote, feedNewerQuote]
          ("p", "g", "points", 27, "X"), r ≠ p → createdOf r < createdOf p) →
        q = p)) := by
  have hne : matchingProps [feedOlderQuote, feedNewerQuote]
      ("p", "g", "points", 27, "X") ≠ [] := by
    decide
  exact ⟨hne, dedupe_keeps_latest_quote [feedOlderQuote, feedNewerQuote]
    ("p", "g", "points", 27, "X") hne⟩

theorem lookupA_eq_none_iff {α β : Type} [DecidableEq α]
    (l : List (α × β)) (k : α) :
    lookupA l k = none ↔ k ∉ l.map Prod.fst := by
  induction l with
  | nil => simp [lookupA, List.find?]
  | cons e rest ih =>
      by_cases he : e.1 = k
      · simp [lookupA, List.find?, he]
      · rw [lookupA, List.find?]
        have hd : (decide (e.1 = k)) = false := by simp [he]
        rw [hd]
        simp only [List.map_cons, List.mem_cons]
        rw [← lookupA, ih]
        constructor
        · intro h hc
          rcases hc with hc | hc
          · exact he hc.symm
          · exact h hc
        · intro h hc
          exact h (Or.inr hc)

theorem insertA_keys {α β : Type} [DecidableEq α]
    (l : List (α × β)) (k : α) (v : β) :
    (insertA l k v).map Prod.fst =
      if (lookupA l k).isNone then l.map Prod.fst ++ [k]
      else l.map Prod.fst := by
  induction l with
  | nil => simp [insertA, lookupA, List.find?]
  | cons e rest ih =>
      rw [insertA]
      by_cases he : e.1 = k
      · rw [if_pos he]
        have hl : (lookupA (e :: rest) k).isNone = false := by
          simp [lookupA, List.find?, he]
        rw [hl]
        simp [he]
      · rw [if_neg he]
        have hd : (decide (e.1 = k)) = false := by simp [he]
        have hl : lookupA (e :: rest) k = lookupA rest k := by
          rw [lookupA, List.find?, hd, ← lookupA]
        rw [List.map_cons, ih, hl]
        by_cases hr : (lookupA rest k).isNone
        · rw [if_pos hr, if_pos hr]
          simp
        · rw [if_neg hr, if_neg hr]
          simp

theorem insertA_keys_nodup {α β : Type} [DecidableEq α]
    (l : List (α × β)) (k : α) (v : β)
    (hnd : (l.map Prod.fst).Nodup) :
    ((insertA l k v).map Prod.fst).Nodup := by
  rw [insertA_keys]
  by_cases hl : (lookupA l k).isNone
  · rw [if_pos hl]
    have hk : k ∉ l.map Prod.fst :=
      (lookupA_eq_none_iff l k).mp (Option.isNone_iff_eq_none.mp hl)
    rw [List.nodup_append]
    exact ⟨hnd, List.nodup_singleton k, by simpa using fun hm => hk hm⟩
  · rw [if_neg hl]
    exact hnd

theorem insertA_forall {α β : Type} [DecidableEq α]
    {P : α × β → Prop} (l : List (α × β)) (k : α) (v : β)
    (h : ∀ e ∈ l, P e) (hkv : P (k, v)) :
    ∀ e ∈ insertA l k v, P e := by
  induction l with
  | nil =>
      intro e he
      rw [insertA] at he
      rcases List.mem_singleton.mp he with rfl
      exact hkv
  | cons e0 rest ih =>
      intro e he
      rw [insertA] at he
      by_cases h0 : e0.1 = k
      · rw [if_pos h0] at he
        rcases List.mem_cons.mp he with rfl | hm
        · exact hkv
        · exact h e (List.mem_cons_of_mem e0 hm)
      · rw [if_neg h0] at he
        rcases List.mem_cons.mp he with rfl | hm
        · exact h e (List.mem_cons_self e rest)
        · exact ih (fun x hx => h x (List.mem_cons_of_mem e0 hx)) e hm

theorem feedFold_invariant (props : List PropOdds) :
    ∀ latest : List (Key5 × PropOdds),
      (latest.map Prod.fst).Nodup →
      (∀ e ∈ latest, e.1 = keyOf e.2) →
      ((props.foldl feedDedupeStep latest).map Prod.fst).Nodup ∧
      (∀ e ∈ props.foldl feedDedupeStep latest, e.1 = keyOf e.2) := by
  induction props with
  | nil => intro latest h1 h2; exact ⟨h1, h2⟩
  | cons p rest ih =>
      intro latest h1 h2
      rw [List.foldl_cons]
      have hstep : ((feedDedupeStep latest p).map Prod.fst).Nodup ∧
          (∀ e ∈ feedDedupeStep latest p, e.1 = keyOf e.2) := by
        rw [feedDedupeStep]
        by_cases hv : validProp p = true
        · rw [if_pos hv]
          cases hl : lookupA latest (keyOf p) with
          | none =>
              exact ⟨insertA_keys_nodup latest (keyOf p) p h1,
                insertA_forall latest (keyOf p) p h2 rfl⟩
          | some q =>
              dsimp only
              by_cases hlt : createdOf q < createdOf p
              · rw [if_pos hlt]
                exact ⟨insertA_keys_nodup latest (keyOf p) p h1,
                  insertA_forall latest (keyOf p) p h2 rfl⟩
              · rw [if_neg hlt]
                exact ⟨h1, h2⟩
        · rw [if_neg hv]
          exact ⟨h1, h2⟩
      exact ih (feedDedupeStep latest p) hstep.1 hstep.2

theorem dedupe_pairwise_distinct_keys (props : List PropOdds) :
    (_dedupe_props props).Pairwise (fun p1 p2 => keyOf p1 ≠ keyOf p2) := by
  obtain ⟨hnd, hcons⟩ := feedFold_invariant props [] (by simp) (by simp)
  rw [_dedupe_props]
  rw [List.pairwise_map]
  have hpw : (feedDedupeFold props).Pairwise
      (fun e1 e2 => e1.1 ≠ e2.1) := by
    rw [List.Nodup] at hnd
    exact List.pairwise_map.mp hnd
  refine List.Pairwise.imp_of_mem ?_ hpw
  intro e1 e2 h1 h2 hne
  rw [hcons e1 h1, hcons e2 h2] at hne
  exact hne

/-- The reference maps one run of the Prop Feed Snapshot Builder reads. -/
structure FeedEnv where
  players : String → Option Player
  games : String → Option Game

/-- One row upserted into `prop_feed_snapshots`, restricted to the
identity fields; the denormalized display and metadata fields are
omitted (no claim mentions them, and they do not affect the upsert
key). -/
structure FeedRow where
  prop_id : Option String
  player_id : Option String
  game_id : Option String
  prop_type : Option String
  line : Option ℚ
  over_price : Option ℤ
  under_price : Option ℤ
  book : Option String
deriving DecidableEq

/-- The (player, game, prop-category, line, book) composite key of a
feed snapshot row. -/
def feedRowKey (r : FeedRow) : Key5 :=
  (r.player_id.getD "", r.game_id.getD "", r.prop_type.getD "",
   r.line.getD 0, r.book.getD "")

/-- Row construction of the per-prop loop of
`build_prop_feed_snapshots.py::build_snapshots`: skip quotes with a
falsy player, game or prop category and quotes whose player or game
lookup fails; otherwise build the row carrying the quote's identity
fields (with `prop_id` from the quote's `id`). -/
def buildFeedRow (env : FeedEnv) (p : PropOdds) : Option FeedRow :=
  if truthy p.player_id && truthy p.game_id && truthy p.prop_type then
    match env.players (p.player_id.getD ""), env.games (p.game_id.getD "") with
    | some player, some game =>
        some { prop_id := p.id, player_id := p.player_id,
               game_id := p.game_id, prop_type := p.prop_type,
               line := p.line, over_price := p.over_price,
               under_price := p.under_price, book := p.book }
    | _, _ => none
  else none

/-- The rows one run of the Prop Feed Snapshot Builder upserts: the
deduplicated quotes passed through the row construction. -/
def buildFeedRows (env : FeedEnv) (props : List PropOdds) : List FeedRow :=
  (_dedupe_props props).filterMap (buildFeedRow env)

/-- The storage layer's upsert with `on_conflict="prop_id"`, as the
builder invokes it: each new row replaces the existing rows with the
same `prop_id`, or is appended. Chunking in groups of 100 does not
change this semantics. -/
def upsertByPropId (table : List FeedRow) (rows : List FeedRow) :
    List FeedRow :=
  rows.foldl (fun t r =>
    if t.any (fun r0 => decide (r0.prop_id = r.prop_id)) then
      t.map (fun r0 => if r0.prop_id = r.prop_id then r else r0)
    else t ++ [r]) table

/-- One run of the Prop Feed Snapshot Builder against a table state:
build the rows from the fetched quotes and upsert them on `prop_id`. -/
def run_feed_builder (env : FeedEnv) (table : List FeedRow)
    (props : List PropOdds) : List FeedRow :=
  upsertByPropId table (buildFeedRows env props)

theorem buildFeedRow_key (env : FeedEnv) (p : PropOdds) (r : FeedRow)
    (h : buildFeedRow env p = some r) : feedRowKey r = keyOf p := by
  rw [buildFeedRow] at h
  by_cases hc : (truthy p.player_id && truthy p.game_id &&
      truthy p.prop_type) = true
  · rw [if_pos hc] at h
    cases hp : env.players (p.player_id.getD "") with
    | none => rw [hp] at h; exact Option.noConfusion h
    | some player =>
        cases hg : env.games (p.game_id.getD "") with
        | none => rw [hp, hg] at h; exact Option.noConfusion h
        | some game =>
            rw [hp, hg] at h
            rw [← Option.some.inj h]
            rfl
  · rw [if_neg hc] at h
    exact Option.noConfusion h

/-- C3 as amended: within a single run the Prop Feed Snapshot Builder
emits at most one row per (player, game, prop-category, line, book)
composite key, enforced by the pre-upsert deduplication; the upsert
itself conflicts on `prop_id`, not on the composite key. -/
theorem feed_rows_pairwise_distinct_keys (env : FeedEnv)
    (props : List PropOdds) :
    (buildFeedRows env props).Pairwise
      (fun r1 r2 => feedRowKey r1 ≠ feedRowKey r2) := by
  rw [buildFeedRows]
  refine List.Pairwise.filterMap (buildFeedRow env) ?_
    (dedupe_pairwise_distinct_keys props)
  intro p1 p2 hne r1 h1 r2 h2
  rw [buildFeedRow_key env p1 r1 h1, buildFeedRow_key env p2 r2 h2]
  exact hne

/-- The first run's quote of the C3 counterexample (prop id "a"). -/
def feedQuoteRunOne : PropOdds :=
  { id := some "a", player_id := some "p", game_id := some "g",
    prop_type := some "points", line := some 27, book := some "X",
    created_at := some "2024-01-01" }

/-- The second run's quote of the C3 counterexample: a fresh odds row
(prop id "b") for the same (player, game, prop-category, line, book). -/
def feedQuoteRunTwo : PropOdds :=
  { id := some "b", player_id := some "p", game_id := some "g",
    prop_type := some "points", line := some 27, book := some "X",
    created_at := some "2024-01-02" }

/-- A reference environment that resolves every player and game. -/
def allRefsFeedEnv : FeedEnv :=
  { players := fun _ => some { }, games := fun _ => some { } }

/-- The row the first C3 run upserts (prop id "a"). -/
def feedRowA : FeedRow :=
  { prop_id := some "a", player_id := some "p", game_id := some "g",
    prop_type := some "points", line := some 27, over_price := none,
    under_price := none, book := some "X" }

/-- The row the second C3 run upserts (prop id "b", same composite
key). -/
def feedRowB : FeedRow :=
  { prop_id := some "b", player_id := some "p", game_id := some "g",
    prop_type := some "points", line := some 27, over_price := none,
    under_price := none, book := some "X" }

/-- Counterexample to C3: the upsert conflicts on `prop_id`, not on the
composite key, so two successive runs whose source quotes share the
composite key but have different prop ids leave two rows with the same
(player, game, prop-category, line, book) key in the table. -/
theorem feed_upsert_not_keyed_on_composite_counterexample :
    run_feed_builder allRefsFeedEnv
      (run_feed_builder allRefsFeedEnv [] [feedQuoteRunOne])
      [feedQuoteRunTwo] = [feedRowA, feedRowB] ∧
    feedRowKey feedRowA = feedRowKey feedRowB ∧
    feedRowA ≠ feedRowB := by
  refine ⟨by decide, by decide, by decide⟩
